/-
Verification of the notepad-lite document-session core against its
natural-language specification.

The repository contains three near-identical tkinter notepad variants
(src/Windows.py, src/macos.py, src/linux.py).  This file gives a shallow
embedding of the document-session operations those variants implement:

  * `check_unsaved_changes`  (Windows.py:168-184, macos.py:249-267,
    linux.py:562-578 — the three bodies are line-for-line identical)
  * `save_file`              (Windows.py:130-142, macos.py:207-219,
    linux.py:422-434 — identical)
  * `save_as_file`           (Windows.py:144-166, macos.py:221-247,
    linux.py:436-461 — identical in session-visible effects; the linux
    variant additionally records the path in a recent-files list, a
    collaborator the spec declares out of scope)
  * `load_file`              (linux.py:392-420)
  * `open_file` load cores   (Windows.py:104-128, macos.py:160-205)
  * `new_file`               (Windows.py:96-102)

The session state mirrors the Python object: the Tk text widget's content
(`buffer`), `self.current_file : Option String`, and the Tk modified flag
(`modified`, read and written through `text.edit_modified`).

External collaborators are embedded as explicit parameters:

  * The file system is a map `FS := String → Option (List Nat)` from paths
    to file bytes; `none` models an unreadable/missing file (any read
    raises and is caught by the generic `except` clause).
  * `writeOk : String → Bool` says whether a write to a path succeeds
    (`open(path, "w")`/`write` raising is caught by `except`).
  * Dialog collaborators are oracles: `chosen : Option String` is the
    result of `filedialog.asksaveasfilename` (`none` = dismissed, Python
    checks `if file_path:`), and `response : Option Bool` is the result of
    `messagebox.askyesnocancel` (`none` = Cancel, `some true` = Yes,
    `some false` = No).

Python text-mode I/O semantics embedded from the library behavior the
source relies on:

  * `open(path, "r", encoding=e)` decodes the bytes with codec `e`
    (raising `UnicodeDecodeError` on failure) and then applies universal
    newline translation ("\r\n" and lone "\r" become "\n") — `pyRead`.
  * `open(path, "w", encoding="utf-8")` translates each "\n" to
    `os.linesep` (a parameter `sep` below; "\n" on the POSIX targets of
    linux.py/macos.py, "\r\n" on Windows) and UTF-8-encodes — `pyWriteBytes`.
  * `text.get("1.0", tk.END)` returns the widget content plus the
    automatic trailing newline the Tk text widget always maintains —
    `textGetAll`.
  * Programmatic `text.delete`/`text.insert` set the Tk modified flag when
    they change the widget content.

The codecs are embedded from the Python codec registry used by the source:
strict UTF-8 (rejecting overlong forms, surrogates and values above
U+10FFFF), cp1251 (every byte defined except 0x98), and latin-1 /
iso-8859-1 (byte b ↦ U+00b, total on bytes).

UI-only effects (window title, status bar, line numbers, encoding label,
recent-files list, config file) are out-of-scope collaborators per the
spec's §1/§6 and are not part of the session state.
-/
import Mathlib

namespace NotepadLite

/-! ## Python text-mode newline translation -/

/-- Universal-newline translation performed by Python text-mode reads:
`"\r\n"` and a lone `"\r"` both become `"\n"`. -/
def readTranslateList : List Char → List Char
  | [] => []
  | c :: rest =>
    if c = '\r' then
      match rest with
      | d :: rest2 =>
        if d = '\n' then '\n' :: readTranslateList rest2
        else '\n' :: readTranslateList (d :: rest2)
      | [] => ['\n']
    else c :: readTranslateList rest

/-- Newline translation performed by Python text-mode writes with
`newline=None`: each `"\n"` is replaced by `os.linesep` (`sep`). -/
def writeTranslateList (sep : List Char) : List Char → List Char
  | [] => []
  | c :: rest =>
    if c = '\n' then sep ++ writeTranslateList sep rest
    else c :: writeTranslateList sep rest

/-- String-level universal-newline read translation. -/
def readTranslate (s : String) : String := ⟨readTranslateList s.data⟩

/-- String-level write-side newline translation (`"\n"` ↦ `sep`). -/
def writeTranslate (sep : String) (s : String) : String :=
  ⟨writeTranslateList sep.data s.data⟩

/-! ## UTF-8 (Python strict codec) -/

/-- UTF-8 encoding of a single Unicode scalar value. -/
def utf8EncodeChar (n : Nat) : List Nat :=
  if n < 0x80 then [n]
  else if n < 0x800 then [0xC0 + n / 0x40, 0x80 + n % 0x40]
  else if n < 0x10000 then
    [0xE0 + n / 0x1000, 0x80 + (n / 0x40) % 0x40, 0x80 + n % 0x40]
  else
    [0xF0 + n / 0x40000, 0x80 + (n / 0x1000) % 0x40,
     0x80 + (n / 0x40) % 0x40, 0x80 + n % 0x40]

/-- UTF-8 encoding of a character list. -/
def utf8EncodeList : List Char → List Nat
  | [] => []
  | c :: rest => utf8EncodeChar c.toNat ++ utf8EncodeList rest

/-- UTF-8 encoding of a string, as Python `str.encode("utf-8")`. -/
def utf8Encode (s : String) : List Nat := utf8EncodeList s.data

/-- Decode one UTF-8 scalar value from the front of a byte list, as
Python's strict utf-8 codec: continuation bytes are `0x80–0xBF`, overlong
forms (`0xC0`/`0xC1` leads, short `0xE0 ..`/`0xF0 ..` sequences),
surrogates (`0xED` with second byte `≥ 0xA0`) and values above U+10FFFF
(`0xF4` with second byte `≥ 0x90`, leads `≥ 0xF5`) are rejected. -/
def utf8DecodeOne : List Nat → Option (Nat × List Nat)
  | [] => none
  | b0 :: rest =>
    if b0 < 0x80 then some (b0, rest)
    else if 0xC2 ≤ b0 ∧ b0 < 0xE0 then
      match rest with
      | b1 :: rest1 =>
        if 0x80 ≤ b1 ∧ b1 < 0xC0 then
          some ((b0 - 0xC0) * 0x40 + (b1 - 0x80), rest1)
        else none
      | [] => none
    else if 0xE0 ≤ b0 ∧ b0 < 0xF0 then
      match rest with
      | b1 :: b2 :: rest2 =>
        if (0x80 ≤ b1 ∧ b1 < 0xC0) ∧ (b0 = 0xE0 → 0xA0 ≤ b1) ∧
           (b0 = 0xED → b1 < 0xA0) ∧ (0x80 ≤ b2 ∧ b2 < 0xC0) then
          some ((b0 - 0xE0) * 0x1000 + (b1 - 0x80) * 0x40 + (b2 - 0x80), rest2)
        else none
      | _ => none
    else if 0xF0 ≤ b0 ∧ b0 < 0xF5 then
      match rest with
      | b1 :: b2 :: b3 :: rest3 =>
        if (0x80 ≤ b1 ∧ b1 < 0xC0) ∧ (b0 = 0xF0 → 0x90 ≤ b1) ∧
           (b0 = 0xF4 → b1 < 0x90) ∧ (0x80 ≤ b2 ∧ b2 < 0xC0) ∧
           (0x80 ≤ b3 ∧ b3 < 0xC0) then
          some ((b0 - 0xF0) * 0x40000 + (b1 - 0x80) * 0x1000 +
                (b2 - 0x80) * 0x40 + (b3 - 0x80), rest3)
        else none
      | _ => none
    else none

/-- Decode a whole byte list as UTF-8.  `fuel` bounds the number of
decoded characters; since every step of `utf8DecodeOne` consumes at least
one byte, `fuel = length of the input` (as used by `utf8Decode`) never
runs out before the input is exhausted. -/
def utf8DecodeListFuel : Nat → List Nat → Option (List Char)
  | _, [] => some []
  | 0, _ :: _ => none
  | fuel + 1, b :: bs =>
    match utf8DecodeOne (b :: bs) with
    | some (n, rest) =>
      Option.map (fun cs => Char.ofNat n :: cs) (utf8DecodeListFuel fuel rest)
    | none => none

/-- Python `bytes.decode("utf-8")` (strict). -/
def utf8Decode (bs : List Nat) : Option String :=
  Option.map (fun cs => String.mk cs) (utf8DecodeListFuel bs.length bs)

/-! ## cp1251 and latin-1 (Python codecs used by the fallback lists) -/

/-- The windows-1251 decode table: identity below 0x80, the letter range
0xC0–0xFF maps onto U+0410–U+044F, byte 0x98 is undefined (Python's
cp1251 codec raises `UnicodeDecodeError` on it), the rest per the
windows-1251 code page. -/
def cp1251Byte (b : Nat) : Option Nat :=
  if b < 0x80 then some b
  else if 0xC0 ≤ b ∧ b < 0x100 then some (0x410 + (b - 0xC0))
  else match b with
    | 0x80 => some 0x0402 | 0x81 => some 0x0403 | 0x82 => some 0x201A
    | 0x83 => some 0x0453 | 0x84 => some 0x201E | 0x85 => some 0x2026
    | 0x86 => some 0x2020 | 0x87 => some 0x2021 | 0x88 => some 0x20AC
    | 0x89 => some 0x2030 | 0x8A => some 0x0409 | 0x8B => some 0x2039
    | 0x8C => some 0x040A | 0x8D => some 0x040C | 0x8E => some 0x040B
    | 0x8F => some 0x040F | 0x90 => some 0x0452 | 0x91 => some 0x2018
    | 0x92 => some 0x2019 | 0x93 => some 0x201C | 0x94 => some 0x201D
    | 0x95 => some 0x2022 | 0x96 => some 0x2013 | 0x97 => some 0x2014
    | 0x98 => none        | 0x99 => some 0x2122 | 0x9A => some 0x0459
    | 0x9B => some 0x203A | 0x9C => some 0x045A | 0x9D => some 0x045C
    | 0x9E => some 0x045B | 0x9F => some 0x045F | 0xA0 => some 0x00A0
    | 0xA1 => some 0x040E | 0xA2 => some 0x045E | 0xA3 => some 0x0408
    | 0xA4 => some 0x00A4 | 0xA5 => some 0x0490 | 0xA6 => some 0x00A6
    | 0xA7 => some 0x00A7 | 0xA8 => some 0x0401 | 0xA9 => some 0x00A9
    | 0xAA => some 0x0404 | 0xAB => some 0x00AB | 0xAC => some 0x00AC
    | 0xAD => some 0x00AD | 0xAE => some 0x00AE | 0xAF => some 0x0407
    | 0xB0 => some 0x00B0 | 0xB1 => some 0x00B1 | 0xB2 => some 0x0406
    | 0xB3 => some 0x0456 | 0xB4 => some 0x0491 | 0xB5 => some 0x00B5
    | 0xB6 => some 0x00B6 | 0xB7 => some 0x00B7 | 0xB8 => some 0x0451
    | 0xB9 => some 0x2116 | 0xBA => some 0x0454 | 0xBB => some 0x00BB
    | 0xBC => some 0x0458 | 0xBD => some 0x0405 | 0xBE => some 0x0455
    | 0xBF => some 0x0457 | _ => none

/-- Python `bytes.decode("cp1251")` on a byte list. -/
def cp1251DecodeList : List Nat → Option (List Char)
  | [] => some []
  | b :: bs =>
    match cp1251Byte b with
    | some n => Option.map (fun cs => Char.ofNat n :: cs) (cp1251DecodeList bs)
    | none => none

/-- Python `bytes.decode("latin-1")` / `"iso-8859-1"`: byte b ↦ U+00b,
defined on every byte. -/
def latin1DecodeList : List Nat → Option (List Char)
  | [] => some []
  | b :: bs =>
    if b < 0x100 then
      Option.map (fun cs => Char.ofNat b :: cs) (latin1DecodeList bs)
    else none

/-- The text encodings named by the sources' fallback lists. -/
inductive PyEncoding
  | utf8
  | cp1251
  | latin1
deriving DecidableEq

/-- Decode a byte list with one of the named Python codecs. -/
def decodeBytes : PyEncoding → List Nat → Option String
  | .utf8, bs => utf8Decode bs
  | .cp1251, bs => Option.map (fun cs => String.mk cs) (cp1251DecodeList bs)
  | .latin1, bs => Option.map (fun cs => String.mk cs) (latin1DecodeList bs)

/-- The ordered encoding list probed by `LinuxNotepad.load_file`
(linux.py:396): `['utf-8', 'cp1251', 'iso-8859-1']`. -/
def linuxEncodings : List PyEncoding := [.utf8, .cp1251, .latin1]

/-- The for-loop of `load_file`: try each encoding in order, return the
first decode that does not raise `UnicodeDecodeError`, together with the
encoding that won. -/
def tryEncodings : List PyEncoding → List Nat → Option (String × PyEncoding)
  | [], _ => none
  | e :: es, bs =>
    match decodeBytes e bs with
    | some content => some (content, e)
    | none => tryEncodings es bs

/-! ## Application state and collaborators -/

/-- The document-session state carried by each notepad object: the Tk text
widget's content (owned here per the spec's data model), the
`self.current_file` attribute (`None` modelled as `none`; the sources only
ever store non-empty dialog results in it), and the Tk modified flag read
and written through `text.edit_modified(...)` — the spec's `isDirty`. -/
structure AppState where
  buffer : String
  current_file : Option String
  modified : Bool
deriving DecidableEq

/-- The file-system collaborator: path ↦ file bytes.  `none` models a path
whose read raises (missing file, permissions); the sources catch any such
exception with a generic `except` clause. -/
abbrev FS := String → Option (List Nat)

/-- Result of a save-path operation: the session state afterwards, the
file system afterwards, and the successful write performed, if any
(path and bytes) — recorded so that properties about the persisted bytes
can be stated. -/
structure SaveOutcome where
  state : AppState
  fs : FS
  written : Option (String × List Nat)

/-- `self.text.get(1.0, tk.END)`: the widget content followed by the
automatic trailing newline the Tk text widget always maintains. -/
def textGetAll (s : AppState) : String := s.buffer ++ "\n"

/-- The bytes `file.write(content)` puts on disk for a text-mode file
opened with `encoding="utf-8"`: newline translation (`"\n"` ↦ `sep`,
where `sep` is `os.linesep`) followed by UTF-8 encoding. -/
def pyWriteBytes (sep : String) (content : String) : List Nat :=
  utf8Encode (writeTranslate sep content)

/-- What Python's text-mode `file.read()` yields for file bytes `bs` under
codec `e`: decode, then universal-newline translation. -/
def pyRead (e : PyEncoding) (bs : List Nat) : Option String :=
  Option.map readTranslate (decodeBytes e bs)

/-! ## Operations

`sep` is `os.linesep` of the host platform ("\n" on the POSIX targets of
linux.py and macos.py). -/

/-- `save_as_file` (Windows.py:144-166; identical in macos.py:221-247 and
linux.py:436-461).  The dialog result is the oracle `chosen`; if a path
was chosen the content is written, and only after a successful write are
`current_file` and the modified flag updated — an exception leaves the
session unchanged. -/
def save_as_file (sep : String) (writeOk : String → Bool) (fs : FS)
    (chosen : Option String) (s : AppState) : SaveOutcome :=
  match chosen with
  | none => ⟨s, fs, none⟩
  | some file_path =>
    let bytes := pyWriteBytes sep (textGetAll s)
    if writeOk file_path then
      ⟨{ s with current_file := some file_path, modified := false },
       fun q => if q = file_path then some bytes else fs q,
       some (file_path, bytes)⟩
    else ⟨s, fs, none⟩

/-- `save_file` (Windows.py:130-142; identical in macos.py:207-219 and
linux.py:422-434).  With a current file, write the widget content to it
and clear the modified flag on success; an exception (write failure)
leaves the session unchanged.  Without a current file, delegate to
`save_as_file`. -/
def save_file (sep : String) (writeOk : String → Bool) (fs : FS)
    (chosen : Option String) (s : AppState) : SaveOutcome :=
  match s.current_file with
  | some current_file =>
    let bytes := pyWriteBytes sep (textGetAll s)
    if writeOk current_file then
      ⟨{ s with modified := false },
       fun q => if q = current_file then some bytes else fs q,
       some (current_file, bytes)⟩
    else ⟨s, fs, none⟩
  | none => save_as_file sep writeOk fs chosen s

/-- `check_unsaved_changes` (Windows.py:168-184; the bodies in
macos.py:249-267 and linux.py:562-578 are identical).  `response` is the
`askyesnocancel` oracle (`none` = Cancel, `some true` = Yes,
`some false` = No).  Returns the outcome of any save performed together
with the boolean the Python method returns (`true` = proceed). -/
def check_unsaved_changes (sep : String) (writeOk : String → Bool) (fs : FS)
    (chosen : Option String) (response : Option Bool) (s : AppState) :
    SaveOutcome × Bool :=
  if s.modified then
    match response with
    | none => (⟨s, fs, none⟩, false)
    | some true =>
      let o := save_file sep writeOk fs chosen s
      (o, !o.state.modified)
    | some false => (⟨{ s with modified := false }, fs, none⟩, true)
  else (⟨s, fs, none⟩, true)

/-- `new_file` (Windows.py:96-102; identical gating in macos.py:151-158
and linux.py:365-372): run the unsaved-changes gate and, only if it
allows, clear the widget and drop `current_file`.  Programmatically
deleting a non-empty widget marks the Tk modified flag (none of the
variants reset it here). -/
def new_file (sep : String) (writeOk : String → Bool) (fs : FS)
    (chosen : Option String) (response : Option Bool) (s : AppState) :
    SaveOutcome × Bool :=
  let r := check_unsaved_changes sep writeOk fs chosen response s
  if r.2 then
    (⟨{ buffer := "", current_file := none,
        modified := r.1.state.modified || r.1.state.buffer != "" },
      r.1.fs, r.1.written⟩, true)
  else r

/-- Result of a load operation, mirroring which branch of the Python code
ran: success with the encoding that won, the for-else branch
("Could not determine file encoding"), or the outer `except`
("Could not open file"). -/
inductive LoadResult
  | Loaded (enc : PyEncoding)
  | FailedEncoding
  | ReadFailed
deriving DecidableEq

/-- `LinuxNotepad.load_file` (linux.py:392-420): probe
`['utf-8', 'cp1251', 'iso-8859-1']` in order; on the first decode without
error, replace the widget content, set `current_file`, and clear the
modified flag (linux.py:411).  If the loop exhausts, the for-else reports
an encoding error; if the read itself raises, the outer `except` reports
an I/O error — in both failure cases the session is untouched. -/
def load_file (fs : FS) (filepath : String) (s : AppState) :
    AppState × LoadResult :=
  match fs filepath with
  | none => (s, .ReadFailed)
  | some bs =>
    match tryEncodings linuxEncodings bs with
    | none => (s, .FailedEncoding)
    | some (content, encoding) =>
      (⟨readTranslate content, some filepath, false⟩, .Loaded encoding)

/-- The load core of `NotepadApp.open_file` in macos.py:160-205 (after the
dialog): try utf-8; on `UnicodeDecodeError` retry with latin-1; both
success branches set `current_file` and call `edit_modified(False)`
(macos.py:188, 201); any other exception leaves the session unchanged. -/
def macos_open_core (fs : FS) (file_path : String) (s : AppState) :
    AppState × LoadResult :=
  match fs file_path with
  | none => (s, .ReadFailed)
  | some bs =>
    match pyRead .utf8 bs with
    | some content => (⟨content, some file_path, false⟩, .Loaded .utf8)
    | none =>
      match pyRead .latin1 bs with
      | some content => (⟨content, some file_path, false⟩, .Loaded .latin1)
      | none => (s, .ReadFailed)

/-- The load core of `NotepadApp.open_file` in Windows.py:104-128 (after
the dialog): a single utf-8 read; any exception (including a decode
error) reports and leaves the session unchanged.  This variant never
calls `edit_modified(False)`, so inserting non-empty content (or deleting
a non-empty widget) leaves the Tk modified flag set. -/
def windows_open_core (fs : FS) (file_path : String) (s : AppState) :
    AppState × LoadResult :=
  match fs file_path with
  | none => (s, .ReadFailed)
  | some bs =>
    match pyRead .utf8 bs with
    | some content =>
      (⟨content, some file_path,
        s.modified || s.buffer != "" || content != ""⟩, .Loaded .utf8)
    | none => (s, .ReadFailed)

/-! ## Lemmas about the gate -/

/-- On a dirty session, choosing Yes runs `save_file` and returns the
negated modified flag (`return not self.text.edit_modified()`). -/
theorem check_some_true (sep : String) (writeOk : String → Bool) (fs : FS)
    (chosen : Option String) (s : AppState) (h : s.modified = true) :
    check_unsaved_changes sep writeOk fs chosen (some true) s
      = (save_file sep writeOk fs chosen s,
         !(save_file sep writeOk fs chosen s).state.modified) := by
  simp [check_unsaved_changes, h]

/-- If `save_file` leaves the modified flag set, it did nothing at all:
every failure branch (write exception, or a dismissed save-as dialog)
returns the session, the file system and no write unchanged. -/
theorem save_file_still_modified (sep : String) (writeOk : String → Bool)
    (fs : FS) (chosen : Option String) (s : AppState)
    (h : (save_file sep writeOk fs chosen s).state.modified = true) :
    save_file sep writeOk fs chosen s = ⟨s, fs, none⟩ := by
  obtain ⟨buf, cf, m⟩ := s
  rcases cf with _ | p
  · rcases chosen with _ | q
    · simp [save_file, save_as_file]
    · by_cases hw : writeOk q
      · simp [save_file, save_as_file, hw] at h
      · simp [save_file, save_as_file, hw]
  · by_cases hw : writeOk p
    · simp [save_file, hw] at h
    · simp [save_file, hw]

/-- Claim C1: for a dirty session where the user chooses Save at the
unsaved-changes prompt, the gate returns Proceed (`true`) exactly when the
invoked save succeeded (the session became clean); when the save fails or
is itself cancelled (save-as dialog dismissed) it returns Abort (`false`),
the session remains dirty and byte-for-byte unchanged, the file system is
untouched and no write happened, and the caller (`new_file`) performs no
destructive action. -/
theorem c1_save_gate (sep : String) (writeOk : String → Bool) (fs : FS)
    (chosen : Option String) (s : AppState) (h : s.modified = true) :
    ((check_unsaved_changes sep writeOk fs chosen (some true) s).2 = true ↔
      (check_unsaved_changes sep writeOk fs chosen (some true) s).1.state.modified
        = false)
    ∧ ((check_unsaved_changes sep writeOk fs chosen (some true) s).2 = false →
        (check_unsaved_changes sep writeOk fs chosen (some true) s).1
          = ⟨s, fs, none⟩
        ∧ new_file sep writeOk fs chosen (some true) s
            = (⟨s, fs, none⟩, false)) := by
  rw [check_some_true sep writeOk fs chosen s h]
  refine ⟨by simp, fun hab => ?_⟩
  simp only [Bool.not_eq_false'] at hab
  have hs := save_file_still_modified sep writeOk fs chosen s hab
  refine ⟨hs, ?_⟩
  simp [new_file, check_some_true sep writeOk fs chosen s h, hs, hab, h]

/-- Witness for C1: a concrete dirty session with a set path whose write
fails; the gate aborts and changes nothing. -/
theorem c1_save_gate_witness :
    (⟨"draft", some "a.txt", true⟩ : AppState).modified = true
    ∧ ((check_unsaved_changes "\n" (fun _ => false) (fun _ => none) none
          (some true) ⟨"draft", some "a.txt", true⟩).2 = false →
        (check_unsaved_changes "\n" (fun _ => false) (fun _ => none) none
          (some true) ⟨"draft", some "a.txt", true⟩).1
          = ⟨⟨"draft", some "a.txt", true⟩, (fun _ => none), none⟩
        ∧ new_file "\n" (fun _ => false) (fun _ => none) none (some true)
            ⟨"draft", some "a.txt", true⟩
          = (⟨⟨"draft", some "a.txt", true⟩, (fun _ => none), none⟩, false)) :=
  ⟨rfl, (c1_save_gate "\n" (fun _ => false) (fun _ => none) none
    ⟨"draft", some "a.txt", true⟩ rfl).2⟩

/-- Claim C2: for a dirty session, choosing Cancel at the unsaved-changes
prompt makes the gate return Abort (`false`) and leaves the session —
buffer content, path, and dirty flag — byte-for-byte unchanged, with the
file system untouched and no write; the caller (`new_file`) then performs
no further action (it does not clear the buffer, replace the path, or
proceed). -/
theorem c2_cancel_gate (sep : String) (writeOk : String → Bool) (fs : FS)
    (chosen : Option String) (s : AppState) (h : s.modified = true) :
    check_unsaved_changes sep writeOk fs chosen none s = (⟨s, fs, none⟩, false)
    ∧ new_file sep writeOk fs chosen none s = (⟨s, fs, none⟩, false) := by
  have hc : check_unsaved_changes sep writeOk fs chosen none s
      = (⟨s, fs, none⟩, false) := by
    simp [check_unsaved_changes, h]
  exact ⟨hc, by simp [new_file, hc]⟩

/-- Witness for C2: a concrete dirty session; Cancel aborts and preserves
everything. -/
theorem c2_cancel_gate_witness :
    (⟨"draft", some "a.txt", true⟩ : AppState).modified = true
    ∧ check_unsaved_changes "\n" (fun _ => true) (fun _ => none) none none
        ⟨"draft", some "a.txt", true⟩
      = (⟨⟨"draft", some "a.txt", true⟩, (fun _ => none), none⟩, false)
    ∧ new_file "\n" (fun _ => true) (fun _ => none) none none
        ⟨"draft", some "a.txt", true⟩
      = (⟨⟨"draft", some "a.txt", true⟩, (fun _ => none), none⟩, false) :=
  ⟨rfl, (c2_cancel_gate "\n" (fun _ => true) (fun _ => none) none
      ⟨"draft", some "a.txt", true⟩ rfl).1,
    (c2_cancel_gate "\n" (fun _ => true) (fun _ => none) none
      ⟨"draft", some "a.txt", true⟩ rfl).2⟩

/-- Claim C3: for a clean session the gate returns Proceed immediately
with no side effect: for every prompt response, save-as chooser and write
oracle — i.e. without consulting any collaborator — the result is the
unchanged session, the unchanged file system, no write, and `true`. -/
theorem c3_clean_gate (sep : String) (writeOk : String → Bool) (fs : FS)
    (chosen : Option String) (response : Option Bool) (s : AppState)
    (h : s.modified = false) :
    check_unsaved_changes sep writeOk fs chosen response s
      = (⟨s, fs, none⟩, true) := by
  simp [check_unsaved_changes, h]

/-- Witness for C3: a concrete clean session passes the gate untouched. -/
theorem c3_clean_gate_witness :
    (⟨"saved text", some "a.txt", false⟩ : AppState).modified = false
    ∧ check_unsaved_changes "\n" (fun _ => true) (fun _ => none) none
        (some true) ⟨"saved text", some "a.txt", false⟩
      = (⟨⟨"saved text", some "a.txt", false⟩, (fun _ => none), none⟩, true) :=
  ⟨rfl, c3_clean_gate "\n" (fun _ => true) (fun _ => none) none (some true)
    ⟨"saved text", some "a.txt", false⟩ rfl⟩

/-- Claim C4: for a dirty session, choosing Discard (No) at the
unsaved-changes prompt clears the dirty flag immediately, performs no
write (file system untouched, nothing written), leaves buffer content and
path unchanged, and makes the gate return Proceed (`true`). -/
theorem c4_discard_gate (sep : String) (writeOk : String → Bool) (fs : FS)
    (chosen : Option String) (s : AppState) (h : s.modified = true) :
    check_unsaved_changes sep writeOk fs chosen (some false) s
      = (⟨{ s with modified := false }, fs, none⟩, true) := by
  simp [check_unsaved_changes, h]

/-- Witness for C4: a concrete dirty session; Discard clears only the
dirty flag and proceeds. -/
theorem c4_discard_gate_witness :
    (⟨"draft", some "a.txt", true⟩ : AppState).modified = true
    ∧ check_unsaved_changes "\n" (fun _ => true) (fun _ => none) none
        (some false) ⟨"draft", some "a.txt", true⟩
      = (⟨⟨"draft", some "a.txt", false⟩, (fun _ => none), none⟩, true) :=
  ⟨rfl, c4_discard_gate "\n" (fun _ => true) (fun _ => none) none
    ⟨"draft", some "a.txt", true⟩ rfl⟩

/-! ## Lemmas about newline translation and the codecs -/

/-- Writing with `os.linesep = "\n"` translates every `"\n"` to itself:
the translation is the identity. -/
theorem writeTranslateList_lf (l : List Char) : writeTranslateList ['\n'] l = l := by
  induction l with
  | nil => simp [writeTranslateList]
  | cons c rest ih =>
    by_cases hc : c = '\n'
    · subst hc; simp [writeTranslateList, ih]
    · simp [writeTranslateList, hc, ih]

/-- String form of `writeTranslateList_lf`. -/
theorem writeTranslate_lf (t : String) : writeTranslate "\n" t = t := by
  obtain ⟨data⟩ := t
  show String.mk (writeTranslateList "\n".data data) = String.mk data
  exact congrArg String.mk (writeTranslateList_lf data)

/-- Unfolding lemma: read translation passes a non-carriage-return head
through unchanged. -/
theorem readTranslateList_cons_ne (c : Char) (rest : List Char)
    (hc : c ≠ '\r') :
    readTranslateList (c :: rest) = c :: readTranslateList rest := by
  cases rest <;> simp [readTranslateList, hc]

/-- Universal-newline read translation is the identity on carriage-return
free text. -/
theorem readTranslateList_no_cr (l : List Char) (h : ∀ c ∈ l, c ≠ '\r') :
    readTranslateList l = l := by
  induction l with
  | nil => rfl
  | cons c rest ih =>
    have hc : c ≠ '\r' := h c (List.mem_cons_self c rest)
    have ht := ih fun x hx => h x (List.mem_cons_of_mem c hx)
    rw [readTranslateList_cons_ne c rest hc, ht]

/-- Round trip of the Windows newline discipline: writing with
`os.linesep = "\r\n"` and reading back with universal newlines restores
carriage-return free text. -/
theorem readTranslateList_write_crlf (l : List Char) (h : ∀ c ∈ l, c ≠ '\r') :
    readTranslateList (writeTranslateList ['\r', '\n'] l) = l := by
  induction l with
  | nil => simp [writeTranslateList, readTranslateList]
  | cons c rest ih =>
    have hc : c ≠ '\r' := h c (List.mem_cons_self c rest)
    have ht := ih fun x hx => h x (List.mem_cons_of_mem c hx)
    by_cases hn : c = '\n'
    · subst hn; simp [writeTranslateList, readTranslateList, ht]
    · rw [show writeTranslateList ['\r', '\n'] (c :: rest)
          = c :: writeTranslateList ['\r', '\n'] rest by
            simp [writeTranslateList, hn],
        readTranslateList_cons_ne c _ hc, ht]

/-- The latin-1 / iso-8859-1 codec decodes every byte sequence: each byte
below 0x100 maps to the code point of the same value. -/
theorem latin1DecodeList_total (bs : List Nat) (h : ∀ b ∈ bs, b < 0x100) :
    ∃ cs, latin1DecodeList bs = some cs := by
  induction bs with
  | nil => exact ⟨[], rfl⟩
  | cons b rest ih =>
    obtain ⟨cs, hcs⟩ := ih fun x hx => h x (List.mem_cons_of_mem b hx)
    exact ⟨Char.ofNat b :: cs,
      by simp [latin1DecodeList, h b (List.mem_cons_self b rest), hcs]⟩

/-! ## Claims C5, C6, C8, C9, C10 -/

/-- Claim C5: `load_file` probes the fixed ordered encoding list
(UTF-8 first, then cp1251, then iso-8859-1; macOS `open_file` probes
UTF-8 then latin-1) and accepts the first codec that decodes the bytes
without error — a file decodable under an earlier-listed encoding is
always read with that encoding and never a later-listed one — and on
success the buffer content is replaced with the decoded text, the path is
set to the loaded file, and the dirty flag is cleared. -/
theorem c5_ordered_fallback (fs : FS) (p : String) (s : AppState)
    (bs : List Nat) (hread : fs p = some bs) :
    (∀ c, pyRead .utf8 bs = some c →
      load_file fs p s = (⟨c, some p, false⟩, .Loaded .utf8)
      ∧ macos_open_core fs p s = (⟨c, some p, false⟩, .Loaded .utf8))
    ∧ (decodeBytes .utf8 bs = none → ∀ c, pyRead .cp1251 bs = some c →
      load_file fs p s = (⟨c, some p, false⟩, .Loaded .cp1251))
    ∧ (decodeBytes .utf8 bs = none → decodeBytes .cp1251 bs = none →
      ∀ c, pyRead .latin1 bs = some c →
      load_file fs p s = (⟨c, some p, false⟩, .Loaded .latin1))
    ∧ (decodeBytes .utf8 bs = none → ∀ c, pyRead .latin1 bs = some c →
      macos_open_core fs p s = (⟨c, some p, false⟩, .Loaded .latin1)) := by
  refine ⟨fun c hc => ?_, fun hu c hc => ?_, fun hu hcp c hc => ?_,
    fun hu c hc => ?_⟩
  · obtain ⟨raw, hraw, hcr⟩ := Option.map_eq_some'.1 hc
    constructor
    · simp [load_file, hread, linuxEncodings, tryEncodings, hraw, hcr]
    · simp [macos_open_core, hread, hc]
  · obtain ⟨raw, hraw, hcr⟩ := Option.map_eq_some'.1 hc
    simp [load_file, hread, linuxEncodings, tryEncodings, hu, hraw, hcr]
  · obtain ⟨raw, hraw, hcr⟩ := Option.map_eq_some'.1 hc
    simp [load_file, hread, linuxEncodings, tryEncodings, hu, hcp, hraw, hcr]
  · have hu' : pyRead .utf8 bs = none := by simp [pyRead, hu]
    simp [macos_open_core, hread, hu', hc]

/-- Witness for C5: the single byte 0x68 is valid UTF-8 ("h"), so the
first-listed encoding wins on both loaders. -/
theorem c5_ordered_fallback_witness :
    ((fun _ => some [0x68] : FS) "f.txt" = some [0x68])
    ∧ load_file (fun _ => some [0x68]) "f.txt" ⟨"", none, false⟩
        = (⟨"h", some "f.txt", false⟩, .Loaded .utf8)
    ∧ macos_open_core (fun _ => some [0x68]) "f.txt" ⟨"", none, false⟩
        = (⟨"h", some "f.txt", false⟩, .Loaded .utf8) := by
  have h := ((c5_ordered_fallback (fun _ => some [0x68]) "f.txt"
    ⟨"", none, false⟩ [0x68] rfl).1 "h" (by decide))
  exact ⟨rfl, h.1, h.2⟩

/-- Counterexample for C6: no byte sequence is invalid in every candidate
encoding of either fallback list — the final fallback (iso-8859-1 /
latin-1) decodes every byte — so the claimed byte sequence on which load
reports `EncodingExhausted` does not exist. -/
theorem c6_counterexample :
    (¬ ∃ bs : List Nat, (∀ b ∈ bs, b < 0x100)
      ∧ tryEncodings linuxEncodings bs = none)
    ∧ (¬ ∃ bs : List Nat, (∀ b ∈ bs, b < 0x100)
      ∧ decodeBytes .utf8 bs = none ∧ decodeBytes .latin1 bs = none) := by
  constructor
  · rintro ⟨bs, hb, hfail⟩
    obtain ⟨cs, hcs⟩ := latin1DecodeList_total bs hb
    cases hu : decodeBytes .utf8 bs with
    | some c => simp [linuxEncodings, tryEncodings, hu] at hfail
    | none =>
      cases hc : decodeBytes .cp1251 bs with
      | some c => simp [linuxEncodings, tryEncodings, hu, hc] at hfail
      | none =>
        simp only [decodeBytes] at hu hc
        simp [linuxEncodings, tryEncodings, decodeBytes, hu, hc, hcs] at hfail
  · rintro ⟨bs, hb, -, hlat⟩
    obtain ⟨cs, hcs⟩ := latin1DecodeList_total bs hb
    simp [decodeBytes, hcs] at hlat

/-- Claim C6 as amended: every byte sequence decodes under some encoding
of the linux fallback list (so the encoding-exhausted failure is
unreachable for genuine file bytes), and when the underlying read fails
(missing file, permissions) both loaders report an I/O failure and leave
the previous session — buffer content, path, and dirty flag — entirely
unchanged. -/
theorem c6_read_failure_preserved (bs : List Nat) (fs : FS) (p : String)
    (s : AppState) (hb : ∀ b ∈ bs, b < 0x100) (hio : fs p = none) :
    (∃ c e, tryEncodings linuxEncodings bs = some (c, e))
    ∧ load_file fs p s = (s, .ReadFailed)
    ∧ macos_open_core fs p s = (s, .ReadFailed) := by
  refine ⟨?_, by simp [load_file, hio], by simp [macos_open_core, hio]⟩
  obtain ⟨cs, hcs⟩ := latin1DecodeList_total bs hb
  cases hu : decodeBytes .utf8 bs with
  | some c => exact ⟨c, .utf8, by simp [linuxEncodings, tryEncodings, hu]⟩
  | none =>
    cases hc : decodeBytes .cp1251 bs with
    | some c => exact ⟨c, .cp1251, by simp [linuxEncodings, tryEncodings, hu, hc]⟩
    | none =>
      refine ⟨String.mk cs, .latin1, ?_⟩
      simp only [decodeBytes] at hu hc
      simp [linuxEncodings, tryEncodings, decodeBytes, hu, hc, hcs]

/-- Witness for C6 (amended): byte 0x98 is invalid UTF-8 and undefined in
cp1251, yet still decodes under the final latin-1 fallback; and a read
failure preserves a concrete session on both loaders. -/
theorem c6_read_failure_preserved_witness :
    (∀ b ∈ [0x98], b < 0x100)
    ∧ ((fun _ => none : FS) "gone.txt" = none)
    ∧ (∃ c e, tryEncodings linuxEncodings [0x98] = some (c, e))
    ∧ load_file (fun _ => none) "gone.txt" ⟨"draft", some "a.txt", true⟩
        = (⟨"draft", some "a.txt", true⟩, .ReadFailed)
    ∧ macos_open_core (fun _ => none) "gone.txt" ⟨"draft", some "a.txt", true⟩
        = (⟨"draft", some "a.txt", true⟩, .ReadFailed) := by
  have h := c6_read_failure_preserved [0x98] (fun _ => none) "gone.txt"
    ⟨"draft", some "a.txt", true⟩ (by decide) rfl
  exact ⟨by decide, rfl, h.1, h.2.1, h.2.2⟩

/-- Claim C8: the session's path is assigned a value only by a successful
load or a successful save-as with a user-chosen path.  A dismissed save-as
dialog or a failed save-as write leaves the whole session (and file
system) unchanged; a successful save-as sets the path to exactly the
chosen path; `save_file` on a session with a path never changes the path;
a failed read or exhausted decode in `load_file` leaves the session
unchanged; and `load_file` either preserves the path or sets it to the
requested file. -/
theorem c8_path_invariant (sep : String) (writeOk : String → Bool) (fs : FS)
    (chosen : Option String) (s : AppState) :
    (chosen = none → save_as_file sep writeOk fs chosen s = ⟨s, fs, none⟩)
    ∧ (∀ p, chosen = some p → writeOk p = false →
        save_as_file sep writeOk fs chosen s = ⟨s, fs, none⟩)
    ∧ (∀ p, chosen = some p → writeOk p = true →
        (save_as_file sep writeOk fs chosen s).state.current_file = some p)
    ∧ (∀ p, s.current_file = some p →
        (save_file sep writeOk fs chosen s).state.current_file = some p)
    ∧ (∀ q, fs q = none → load_file fs q s = (s, .ReadFailed))
    ∧ (∀ q bs, fs q = some bs → tryEncodings linuxEncodings bs = none →
        load_file fs q s = (s, .FailedEncoding))
    ∧ (∀ q, (load_file fs q s).1.current_file = s.current_file
        ∨ (load_file fs q s).1.current_file = some q) := by
  refine ⟨fun h => by simp [save_as_file, h],
    fun p hp hw => by simp [save_as_file, hp, hw],
    fun p hp hw => by simp [save_as_file, hp, hw],
    fun p hp => ?_, fun q hq => by simp [load_file, hq],
    fun q bs hq ht => by simp [load_file, hq, ht], fun q => ?_⟩
  · by_cases hw : writeOk p
    · simp [save_file, hp, hw]
    · simp [save_file, hp, hw]
  · cases hq : fs q with
    | none => simp [load_file, hq]
    | some bs =>
      cases ht : tryEncodings linuxEncodings bs with
      | none => simp [load_file, hq, ht]
      | some ce => right; simp [load_file, hq, ht]

/-- Witness for C8: a successful save-as to a chosen path sets the path
to exactly that path. -/
theorem c8_path_invariant_witness :
    (save_as_file "\n" (fun _ => true) (fun _ => none) (some "new.txt")
      ⟨"draft", none, true⟩).state.current_file = some "new.txt" :=
  (c8_path_invariant "\n" (fun _ => true) (fun _ => none) (some "new.txt")
    ⟨"draft", none, true⟩).2.2.1 "new.txt" rfl rfl

/-- Claim C9: saving twice in succession with no edits in between writes
the same bytes both times (the second write is byte-identical to the
first), and the dirty flag is false immediately after each call. -/
theorem c9_save_idempotent (sep : String) (writeOk : String → Bool) (fs : FS)
    (chosen : Option String) (s : AppState) (p : String)
    (hp : s.current_file = some p) (hw : writeOk p = true) :
    (save_file sep writeOk fs chosen s).written
      = some (p, pyWriteBytes sep (textGetAll s))
    ∧ (save_file sep writeOk (save_file sep writeOk fs chosen s).fs chosen
        (save_file sep writeOk fs chosen s).state).written
      = (save_file sep writeOk fs chosen s).written
    ∧ (save_file sep writeOk fs chosen s).state.modified = false
    ∧ (save_file sep writeOk (save_file sep writeOk fs chosen s).fs chosen
        (save_file sep writeOk fs chosen s).state).state.modified = false := by
  obtain ⟨buf, cf, m⟩ := s
  cases hp
  simp [save_file, hw, textGetAll]

/-- Witness for C9: a concrete session saved twice; both writes carry the
same bytes and the session is clean after each save. -/
theorem c9_save_idempotent_witness :
    (⟨"hi", some "a.txt", true⟩ : AppState).current_file = some "a.txt"
    ∧ (save_file "\n" (fun _ => true) (fun _ => none) none
        ⟨"hi", some "a.txt", true⟩).written
      = some ("a.txt", pyWriteBytes "\n" (textGetAll ⟨"hi", some "a.txt", true⟩))
    ∧ (save_file "\n" (fun _ => true)
        (save_file "\n" (fun _ => true) (fun _ => none) none
          ⟨"hi", some "a.txt", true⟩).fs none
        (save_file "\n" (fun _ => true) (fun _ => none) none
          ⟨"hi", some "a.txt", true⟩).state).written
      = (save_file "\n" (fun _ => true) (fun _ => none) none
          ⟨"hi", some "a.txt", true⟩).written :=
  ⟨rfl,
    (c9_save_idempotent "\n" (fun _ => true) (fun _ => none) none
      ⟨"hi", some "a.txt", true⟩ "a.txt" rfl rfl).1,
    (c9_save_idempotent "\n" (fun _ => true) (fun _ => none) none
      ⟨"hi", some "a.txt", true⟩ "a.txt" rfl rfl).2.1⟩

/-- Claim C10: every successful save and save-as writes exactly the text
widget content from index 1.0 through END — the buffer content with the
widget's automatic trailing newline appended — so the persisted text is
`buffer ++ "\n"` even when the buffer does not end in a newline (on the
POSIX targets, where `os.linesep = "\n"` makes the write-side newline
translation the identity). -/
theorem c10_trailing_newline (sep : String) (writeOk : String → Bool)
    (fs : FS) (chosen : Option String) (s : AppState) (p : String) :
    (s.current_file = some p → writeOk p = true →
      (save_file sep writeOk fs chosen s).written
        = some (p, utf8Encode (writeTranslate sep (s.buffer ++ "\n"))))
    ∧ (writeOk p = true →
      (save_as_file sep writeOk fs (some p) s).written
        = some (p, utf8Encode (writeTranslate sep (s.buffer ++ "\n"))))
    ∧ (sep = "\n" → writeTranslate sep (s.buffer ++ "\n") = s.buffer ++ "\n") := by
  refine ⟨fun hp hw => ?_, fun hw => ?_, fun hsep => ?_⟩
  · obtain ⟨buf, cf, m⟩ := s
    cases hp
    simp [save_file, hw, pyWriteBytes, textGetAll]
  · simp [save_as_file, hw, pyWriteBytes, textGetAll]
  · subst hsep
    exact writeTranslate_lf _

/-- Witness for C10: saving a buffer that does not end in a newline
persists the buffer followed by one trailing newline ("hi" is written as
the UTF-8 bytes of "hi\n"). -/
theorem c10_trailing_newline_witness :
    (save_file "\n" (fun _ => true) (fun _ => none) none
        ⟨"hi", some "a.txt", true⟩).written
      = some ("a.txt", utf8Encode (writeTranslate "\n" ("hi" ++ "\n")))
    ∧ utf8Encode (writeTranslate "\n" ("hi" ++ "\n")) = [0x68, 0x69, 0x0A] :=
  ⟨(c10_trailing_newline "\n" (fun _ => true) (fun _ => none) none
      ⟨"hi", some "a.txt", true⟩ "a.txt").1 rfl rfl,
    by decide⟩

/-! ## UTF-8 round trip -/

/-- The UTF-8 encoding of a scalar value is never empty. -/
theorem utf8EncodeChar_ne_nil (n : Nat) : utf8EncodeChar n ≠ [] := by
  unfold utf8EncodeChar
  split
  · simp
  · split
    · simp
    · split <;> simp

/-- Every character's code point is a Unicode scalar value: below the
surrogate range or between U+E000 and U+10FFFF. -/
theorem char_toNat_valid (c : Char) :
    c.toNat < 0xD800 ∨ (0xE000 ≤ c.toNat ∧ c.toNat < 0x110000) := by
  rcases c.valid with h | ⟨h1, h2⟩
  · exact Or.inl (@UInt32.toNat_lt_of_lt c.val 0xD800 (by decide) h)
  · refine Or.inr ⟨?_, @UInt32.toNat_lt_of_lt c.val 0x110000 (by decide) h2⟩
    have h3 := @UInt32.lt_toNat_of_lt c.val 0xDFFF (by decide) h1
    have h4 : c.toNat = c.val.toNat := rfl
    omega

/-- Decoding the UTF-8 encoding of a Unicode scalar value from the front
of a byte stream recovers the value and consumes exactly its bytes. -/
theorem utf8DecodeOne_encodeChar (n : Nat)
    (hv : n < 0xD800 ∨ (0xE000 ≤ n ∧ n < 0x110000)) (rest : List Nat) :
    utf8DecodeOne (utf8EncodeChar n ++ rest) = some (n, rest) := by
  by_cases h1 : n < 0x80
  · simp [utf8EncodeChar, utf8DecodeOne, h1]
  · by_cases h2 : n < 0x800
    · rw [show utf8EncodeChar n = [0xC0 + n / 0x40, 0x80 + n % 0x40] by
        simp [utf8EncodeChar, h1, h2]]
      simp only [List.cons_append, List.nil_append, utf8DecodeOne]
      rw [if_neg (by omega),
        if_pos (show 0xC2 ≤ 0xC0 + n / 0x40 ∧ 0xC0 + n / 0x40 < 0xE0 by omega),
        if_pos (show 0x80 ≤ 0x80 + n % 0x40 ∧ 0x80 + n % 0x40 < 0xC0 by omega)]
      simp only [Option.some.injEq, Prod.mk.injEq]
      exact ⟨by omega, trivial⟩
    · by_cases h3 : n < 0x10000
      · rw [show utf8EncodeChar n
            = [0xE0 + n / 0x1000, 0x80 + (n / 0x40) % 0x40, 0x80 + n % 0x40] by
          simp [utf8EncodeChar, h1, h2, h3]]
        simp only [List.cons_append, List.nil_append, utf8DecodeOne]
        rw [if_neg (by omega), if_neg (by omega),
          if_pos (show 0xE0 ≤ 0xE0 + n / 0x1000 ∧ 0xE0 + n / 0x1000 < 0xF0 by
            omega),
          if_pos (show (0x80 ≤ 0x80 + (n / 0x40) % 0x40
              ∧ 0x80 + (n / 0x40) % 0x40 < 0xC0)
            ∧ (0xE0 + n / 0x1000 = 0xE0 → 0xA0 ≤ 0x80 + (n / 0x40) % 0x40)
            ∧ (0xE0 + n / 0x1000 = 0xED → 0x80 + (n / 0x40) % 0x40 < 0xA0)
            ∧ (0x80 ≤ 0x80 + n % 0x40 ∧ 0x80 + n % 0x40 < 0xC0) by
              refine ⟨by omega, fun he => ?_, fun he => ?_, by omega⟩ <;> omega)]
        simp only [Option.some.injEq, Prod.mk.injEq]
        exact ⟨by omega, trivial⟩
      · have h4 : n < 0x110000 := by omega
        rw [show utf8EncodeChar n
            = [0xF0 + n / 0x40000, 0x80 + (n / 0x1000) % 0x40,
               0x80 + (n / 0x40) % 0x40, 0x80 + n % 0x40] by
          simp [utf8EncodeChar, h1, h2, h3]]
        simp only [List.cons_append, List.nil_append, utf8DecodeOne]
        rw [if_neg (by omega), if_neg (by omega), if_neg (by omega),
          if_pos (show 0xF0 ≤ 0xF0 + n / 0x40000 ∧ 0xF0 + n / 0x40000 < 0xF5 by
            omega),
          if_pos (show (0x80 ≤ 0x80 + (n / 0x1000) % 0x40
              ∧ 0x80 + (n / 0x1000) % 0x40 < 0xC0)
            ∧ (0xF0 + n / 0x40000 = 0xF0 → 0x90 ≤ 0x80 + (n / 0x1000) % 0x40)
            ∧ (0xF0 + n / 0x40000 = 0xF4 → 0x80 + (n / 0x1000) % 0x40 < 0x90)
            ∧ (0x80 ≤ 0x80 + (n / 0x40) % 0x40 ∧ 0x80 + (n / 0x40) % 0x40 < 0xC0)
            ∧ (0x80 ≤ 0x80 + n % 0x40 ∧ 0x80 + n % 0x40 < 0xC0) by
              refine ⟨by omega, fun he => ?_, fun he => ?_, by omega, by omega⟩
                <;> omega)]
        simp only [Option.some.injEq, Prod.mk.injEq]
        exact ⟨by omega, trivial⟩

/-- Decoding the UTF-8 encoding of a character list recovers the list,
for any fuel at least the byte length (each decode step consumes at least
one byte). -/
theorem utf8DecodeListFuel_encode (cs : List Char) :
    ∀ fuel : Nat, (utf8EncodeList cs).length ≤ fuel →
    utf8DecodeListFuel fuel (utf8EncodeList cs) = some cs := by
  induction cs with
  | nil => intro fuel hf; cases fuel <;> rfl
  | cons c rest ih =>
    intro fuel hf
    obtain ⟨b, t, hbt⟩ : ∃ b t, utf8EncodeChar c.toNat = b :: t := by
      cases henc : utf8EncodeChar c.toNat with
      | nil => exact absurd henc (utf8EncodeChar_ne_nil c.toNat)
      | cons b t => exact ⟨b, t, rfl⟩
    have hlen : (utf8EncodeList (c :: rest)).length
        = t.length + 1 + (utf8EncodeList rest).length := by
      simp [utf8EncodeList, hbt]
      omega
    cases fuel with
    | zero => omega
    | succ f =>
      have hshape : utf8EncodeList (c :: rest)
          = b :: (t ++ utf8EncodeList rest) := by
        rw [utf8EncodeList, hbt]
        rfl
      rw [hshape]
      simp only [utf8DecodeListFuel]
      rw [show utf8DecodeOne (b :: (t ++ utf8EncodeList rest))
          = some (c.toNat, utf8EncodeList rest) by
        rw [← List.cons_append, ← hbt]
        exact utf8DecodeOne_encodeChar c.toNat (char_toNat_valid c) _]
      simp [ih f (by omega), Char.ofNat_toNat]

/-- Python UTF-8 round trip: decoding the encoding of any string yields
the string back. -/
theorem utf8_roundtrip (t : String) : utf8Decode (utf8Encode t) = some t := by
  obtain ⟨cs⟩ := t
  show utf8Decode (utf8EncodeList cs) = some (String.mk cs)
  rw [utf8Decode, utf8DecodeListFuel_encode cs _ le_rfl]
  rfl

/-- Writing with `os.linesep` and reading back with universal newlines is
the identity on carriage-return free text, for both the POSIX and Windows
line separators. -/
theorem readTranslate_writeTranslate (sep t : String)
    (h : ∀ c ∈ t.data, c ≠ '\r') (hsep : sep = "\n" ∨ sep = "\r\n") :
    readTranslate (writeTranslate sep t) = t := by
  obtain ⟨cs⟩ := t
  rcases hsep with h1 | h1 <;> subst h1
  · show String.mk (readTranslateList (writeTranslateList "\n".data cs))
      = String.mk cs
    rw [show "\n".data = ['\n'] from rfl, writeTranslateList_lf]
    exact congrArg String.mk (readTranslateList_no_cr cs h)
  · show String.mk (readTranslateList (writeTranslateList "\r\n".data cs))
      = String.mk cs
    rw [show "\r\n".data = ['\r', '\n'] from rfl]
    exact congrArg String.mk (readTranslateList_write_crlf cs h)

/-- Appending the widget's trailing newline preserves freedom from
carriage returns. -/
theorem no_cr_append_lf (t : String) (hT : ∀ c ∈ t.data, c ≠ '\r') :
    ∀ c ∈ (t ++ "\n").data, c ≠ '\r' := by
  intro c hc
  rw [String.data_append] at hc
  rcases List.mem_append.1 hc with h | h
  · exact hT c h
  · rw [show ("\n" : String).data = ['\n'] from rfl] at h
    simp only [List.mem_singleton] at h
    subst h
    decide

/-- What a text-mode UTF-8 read yields from bytes produced by a text-mode
UTF-8 write: the original content, provided it is carriage-return free
and `os.linesep` is `"\n"` or `"\r\n"`. -/
theorem pyRead_pyWriteBytes (sep content : String)
    (h : ∀ c ∈ content.data, c ≠ '\r') (hsep : sep = "\n" ∨ sep = "\r\n") :
    pyRead .utf8 (pyWriteBytes sep content) = some content := by
  rw [pyRead, pyWriteBytes, show decodeBytes .utf8 = utf8Decode from rfl,
    utf8_roundtrip, Option.map_some']
  exact congrArg some (readTranslate_writeTranslate sep content h hsep)

/-- Counterexample for C7: saving the buffer "hello" to a path and
loading that path back does not yield "hello" — the widget's trailing
newline makes the reloaded buffer "hello\n" (on both the linux loader and
the Windows loader). -/
theorem c7_counterexample :
    (load_file
        (save_file "\n" (fun _ => true) (fun _ => none) none
          ⟨"hello", some "a.txt", true⟩).fs "a.txt"
        (save_file "\n" (fun _ => true) (fun _ => none) none
          ⟨"hello", some "a.txt", true⟩).state).1.buffer ≠ "hello"
    ∧ (load_file
        (save_file "\n" (fun _ => true) (fun _ => none) none
          ⟨"hello", some "a.txt", true⟩).fs "a.txt"
        (save_file "\n" (fun _ => true) (fun _ => none) none
          ⟨"hello", some "a.txt", true⟩).state).1.buffer = "hello\n"
    ∧ (windows_open_core
        (save_file "\n" (fun _ => true) (fun _ => none) none
          ⟨"hello", some "a.txt", true⟩).fs "a.txt"
        (save_file "\n" (fun _ => true) (fun _ => none) none
          ⟨"hello", some "a.txt", true⟩).state).1.buffer = "hello\n" := by
  refine ⟨by decide, by decide, by decide⟩

/-- Claim C7 as amended: for every carriage-return free text `T` (any
Lean string is UTF-8 encodable), saving a session whose buffer is `T` to
its path and then loading that same path yields buffer content exactly
`T ++ "\n"` — the saved bytes carry the Tk widget's automatic trailing
newline, so one newline is appended per save/load cycle rather than the
round trip being the identity.  This holds for both the POSIX and the
Windows value of `os.linesep`, on the Windows loader and on the linux
loader. -/
theorem c7_roundtrip_amended (T p sep : String) (s : AppState)
    (writeOk : String → Bool) (fs : FS) (chosen : Option String)
    (hT : ∀ c ∈ T.data, c ≠ '\r') (hsep : sep = "\n" ∨ sep = "\r\n")
    (hbuf : s.buffer = T) (hcf : s.current_file = some p)
    (hw : writeOk p = true) :
    (windows_open_core (save_file sep writeOk fs chosen s).fs p
        (save_file sep writeOk fs chosen s).state).1.buffer = T ++ "\n"
    ∧ (load_file (save_file sep writeOk fs chosen s).fs p
        (save_file sep writeOk fs chosen s).state).1.buffer = T ++ "\n" := by
  have hsave : save_file sep writeOk fs chosen s
      = ⟨{ s with modified := false },
         fun q => if q = p then some (pyWriteBytes sep (T ++ "\n")) else fs q,
         some (p, pyWriteBytes sep (T ++ "\n"))⟩ := by
    simp [save_file, hcf, hw, textGetAll, hbuf]
  rw [hsave]
  have hrd : pyRead .utf8 (pyWriteBytes sep (T ++ "\n")) = some (T ++ "\n") :=
    pyRead_pyWriteBytes sep (T ++ "\n") (no_cr_append_lf T hT) hsep
  have hdec : decodeBytes .utf8 (pyWriteBytes sep (T ++ "\n"))
      = some (writeTranslate sep (T ++ "\n")) := utf8_roundtrip _
  have htr : readTranslate (writeTranslate sep (T ++ "\n")) = T ++ "\n" :=
    readTranslate_writeTranslate sep (T ++ "\n") (no_cr_append_lf T hT) hsep
  constructor
  · simp [windows_open_core, hrd]
  · simp [load_file, linuxEncodings, tryEncodings, hdec, htr]

/-- Witness for C7 (amended): the concrete session with buffer "hi" and
path "b.txt", saved and reloaded, has buffer exactly "hi\n". -/
theorem c7_roundtrip_amended_witness :
    (∀ c ∈ ("hi" : String).data, c ≠ '\r')
    ∧ (load_file
        (save_file "\n" (fun _ => true) (fun _ => none) none
          ⟨"hi", some "b.txt", true⟩).fs "b.txt"
        (save_file "\n" (fun _ => true) (fun _ => none) none
          ⟨"hi", some "b.txt", true⟩).state).1.buffer = "hi" ++ "\n" :=
  ⟨by decide,
    (c7_roundtrip_amended "hi" "b.txt" "\n" ⟨"hi", some "b.txt", true⟩
      (fun _ => true) (fun _ => none) none (by decide) (Or.inl rfl)
      rfl rfl rfl).2⟩

end NotepadLite
